import Mathlib

/- Verification development for the ZEP break bot (src/main.py).

   Modelling conventions:
   * Python `str` values are `List Char` (sequences of Unicode code points);
     string literals enter through `String.data`.
   * Python `float` timestamps (`time.time()`) and durations are integers
     in ticks of 10⁻⁵ s.  Every constant in the program (0.8, 1.6, 1.8,
     6.0, 0.12, 0.05, 0.25 and the integer TTLs) is exact on this grid,
     as is every backoff value 0.8·1.6ᵏ the retry loop reaches below its
     6 s cap, so the idealised decimal arithmetic of the spec is computed
     exactly.  (At the single point where 8·b/5 leaves the grid,
     b = 5.24288 s, both the real product 8.388608 s and its floor exceed
     the 6 s cap, so the following `min` hides the floor.)
   * The guard dictionaries are only read through `.get(key, 0.0)` and
     written by assignment, so each is a total function with default 0.
   * Regex classes `\s`, `\d`, `\w` are modelled over the character
     repertoire the bot meets (ASCII plus Hangul syllables); `str.lower`
     is ASCII lowercasing.  All regex inputs are `.strip()`ed first, so a
     final `$` anchor is end-of-string.
   * DOM interactions (Playwright) appear as explicit oracles: per-attempt
     send outcomes, a per-item fault point, and a sender-attribution
     result for the sibling-walk heuristic. -/

namespace ZepBot

/-- Python regex `\s` / `str.strip` whitespace: space, tab, newline,
carriage return, vertical tab, form feed. -/
def pySpace (c : Char) : Bool :=
  c.toNat == 32 || c.toNat == 9 || c.toNat == 10 || c.toNat == 13 ||
  c.toNat == 11 || c.toNat == 12

/-- Regex `\d`, over the ASCII digits the command grammar is written with. -/
def isDig (c : Char) : Bool := decide (48 ≤ c.toNat ∧ c.toNat ≤ 57)

/-- Hangul syllable block, the regex range `가-힣`. -/
def isHangulSyl (c : Char) : Bool := decide (0xAC00 ≤ c.toNat ∧ c.toNat ≤ 0xD7A3)

/-- Regex `\w` (word character) over the repertoire the bot meets:
ASCII alphanumerics, underscore, Hangul syllables. -/
def pyWordChar (c : Char) : Bool :=
  isDig c || decide (65 ≤ c.toNat ∧ c.toNat ≤ 90) ||
  decide (97 ≤ c.toNat ∧ c.toNat ≤ 122) || c.toNat == 95 || isHangulSyl c

/-- The trailing character class `[가-힣\s\w]` of `NATURAL_RE`. -/
def natClassChar (c : Char) : Bool := isHangulSyl c || pySpace c || pyWordChar c

/-- Python str.strip: drop whitespace from both ends. -/
def pyStrip (l : List Char) : List Char :=
  ((l.dropWhile pySpace).reverse.dropWhile pySpace).reverse

/-- Python `str.isdigit()` (ASCII digits): nonempty and all digits. -/
def pyIsDigit (l : List Char) : Bool := !l.isEmpty && l.all isDig

/-- Python `str.lower()` (ASCII case folding). -/
def pyLower (l : List Char) : List Char := l.map Char.toLower

/-- Does `pat` occur as a prefix of `l`? -/
def startsList : List Char → List Char → Bool
  | [], _ => true
  | _ :: _, [] => false
  | p :: ps, c :: cs => p == c && startsList ps cs

/-- Does `p` hold of some suffix of `l`?  This is the `re.search` /
substring-containment one-point quantifier: a pattern matches somewhere
in `l` iff its prefix-matcher accepts some suffix. -/
def searchAny (p : List Char → Bool) : List Char → Bool
  | [] => p []
  | c :: r => p (c :: r) || searchAny p r

/-- Python `pat in l` substring containment. -/
def containsSub (pat l : List Char) : Bool :=
  searchAny (fun suf => startsList pat suf) l

/-- Value of a digit string, `int(m.group(1))`. -/
def digitsVal (ds : List Char) : Nat :=
  ds.foldl (fun a c => 10 * a + (c.toNat - 48)) 0

/-- Whitespace collapsing: every whitespace run becomes one space (re.sub of the pattern backslash-s-plus). -/
def collapseWs : List Char → List Char
  | [] => []
  | [c] => if pySpace c then [' '] else [c]
  | c :: d :: r =>
    if pySpace c && pySpace d then collapseWs (d :: r)
    else (if pySpace c then ' ' else c) :: collapseWs (d :: r)

/-- Python split of the content on newline characters. -/
def splitNl : List Char → List (List Char)
  | [] => [[]]
  | c :: r =>
    if c = '\n' then [] :: splitNl r
    else
      match splitNl r with
      | [] => [[c]]
      | h :: t => (c :: h) :: t

/-- Python join of the parts with a newline between. -/
def joinNl : List (List Char) → List Char
  | [] => []
  | [l] => l
  | l :: ls => l ++ '\n' :: joinNl ls

/- ──────────────────────────────────────────────────────────────────────
   Command Normalizer: normalize_cmd_text and its four regexes.
   Each matcher is a deterministic translation of the anchored regex;
   wherever adjacent regex pieces read from disjoint character classes
   (digit / whitespace / a fixed Hangul or ASCII letter) greedy maximal
   munch is the only branch backtracking could take, so the
   deterministic parse accepts exactly the regex language.  The only
   genuinely nondeterministic piece, `\s*.*?(휴식|쉬)` of NATURAL_RE, is
   modelled as an explicit search over all split points (scanWs/scanNoNl).
   ────────────────────────────────────────────────────────────────────── -/

/-- Matcher for `CMD_RE = ^#?\s*휴식\s*(\d+)\s*(?:분)?\s*$` applied with `.match`
(anchored both ends; the input is stripped).  Returns the captured
digits group on success. -/
def cmd_match (s : List Char) : Option Nat :=
  let s1 := if startsList "#".data s then s.drop 1 else s
  let s2 := s1.dropWhile pySpace
  if startsList "휴식".data s2 then
    let s3 := (s2.drop 2).dropWhile pySpace
    let ds := s3.takeWhile isDig
    if ds.isEmpty then none
    else
      let s4 := (s3.drop ds.length).dropWhile pySpace
      if startsList "분".data s4 then
        if (s4.drop 1).all pySpace then some (digitsVal ds) else none
      else if s4.isEmpty then some (digitsVal ds)
      else none
  else none

/-- Matcher for `SHORT_RE = ^\s*#\s*(\d{1,3})\s*$`.  A digit run longer than 3 can
never match (whatever `{1,3}` keeps, a digit is left over where `\s*$`
must match), so the matcher reads the whole run and bounds its length. -/
def short_match (s : List Char) : Option Nat :=
  let s1 := s.dropWhile pySpace
  if startsList "#".data s1 then
    let r1 := (s1.drop 1).dropWhile pySpace
    let ds := r1.takeWhile isDig
    let r2 := r1.drop ds.length
    if decide (1 ≤ ds.length) && decide (ds.length ≤ 3) && r2.all pySpace then
      some (digitsVal ds)
    else none
  else none

/-- One split point of `(휴식|쉬)[가-힣\s\w]*$`: a keyword here, and
everything after it inside the trailing class. -/
def kwClass (l : List Char) : Bool :=
  (startsList "휴식".data l && (l.drop 2).all natClassChar) ||
  (startsList "쉬".data l && (l.drop 1).all natClassChar)

/-- Search for `.*?(휴식|쉬)[가-힣\s\w]*$`: some split point is reachable through
non-newline characters (`.` does not match a newline). -/
def scanNoNl : List Char → Bool
  | [] => false
  | c :: r => kwClass (c :: r) || (!(c == '\n') && scanNoNl r)

/-- Search for `\s*.*?(휴식|쉬)[가-힣\s\w]*$`: a whitespace prefix, then `scanNoNl`. -/
def scanWs : List Char → Bool
  | [] => false
  | c :: r => scanNoNl (c :: r) || (pySpace c && scanWs r)

/-- Matcher for `NATURAL_RE = ^\s*(\d{1,3})\s*분\s*.*?(휴식|쉬)[가-힣\s\w]*$`.
Digit run bounded as in `short_match` (a longer run leaves a digit where
`\s*분` must match). -/
def natural_match (s : List Char) : Option Nat :=
  let s1 := s.dropWhile pySpace
  let ds := s1.takeWhile isDig
  if decide (1 ≤ ds.length) && decide (ds.length ≤ 3) then
    let rest := (s1.drop ds.length).dropWhile pySpace
    if startsList "분".data rest then
      if scanWs (rest.drop 1) then some (digitsVal ds) else none
    else none
  else none

/-- Matcher for the explicit near-miss pattern `^#\s*\d+\s*분$` applied
with `re.match`: marker, digits, unit word and nothing else. -/
def nearmiss_match (s : List Char) : Bool :=
  if startsList "#".data s then
    let r1 := (s.drop 1).dropWhile pySpace
    let ds := r1.takeWhile isDig
    let r2 := (r1.drop ds.length).dropWhile pySpace
    !ds.isEmpty && r2 == "분".data
  else false

/-- Model of `normalize_cmd_text`: strip, refuse pure digit strings, then try
CMD_RE, SHORT_RE, NATURAL_RE in order; the near-miss pattern and the
fall-through both yield no match. -/
def normalize_cmd_text (t : List Char) : Option Nat :=
  let s := pyStrip t
  if pyIsDigit s then none
  else
    match cmd_match s with
    | some n => some n
    | none =>
      match short_match s with
      | some n => some n
      | none =>
        match natural_match s with
        | some n => some n
        | none => if nearmiss_match s then none else none

/- ──────────────────────────────────────────────────────────────────────
   Bot state (BreakBot.__init__).  The five guard dicts are total maps
   with default 0.0; `sent_msgs` records the texts that actually reached
   the room (a successful type+Enter), `warns` counts the printed
   WARN lines — the two observable outputs of the send path.
   ────────────────────────────────────────────────────────────────────── -/

/-- Default configuration value of the bot display name. -/
def BOT_NAME : List Char := "휴식 조교".data

/-- One second, in the 10⁻⁵ s ticks all timestamps are measured in. -/
def SEC : Int := 100000

def SENDER_MSG_TTL : Int := 8 * SEC
def MSG_ONLY_TTL : Int := 15 * SEC
def CMD_GUARD_TTL : Int := 15 * SEC
def RECENT_NAME_SEC : Int := 30 * SEC
def GLOBAL_MINUTE_GUARD : Int := 10 * SEC
def MIN_SEND_INTERVAL : Int := 180000
def MAX_RETRY : ℕ := 10

structure BotState where
  trigger_seen : List Char → Int
  msg_seen : List Char → Int
  cmd_guard : List Char → Int
  cmd_text_guard : List Char → Int
  minute_global_guard : Int → Int
  recent_sender : Option (List Char × Int)
  back_cooldown : Int
  last_send_ts : Int
  cooldown_until : Int
  running_timers : List (Int × List Char)
  sent_msgs : List (List Char)
  warns : ℕ

/-- A fresh `BreakBot` (empty dicts read as 0.0 through `.get(k, 0.0)`). -/
def initState : BotState where
  trigger_seen := fun _ => 0
  msg_seen := fun _ => 0
  cmd_guard := fun _ => 0
  cmd_text_guard := fun _ => 0
  minute_global_guard := fun _ => 0
  recent_sender := none
  back_cooldown := 0
  last_send_ts := 0
  cooldown_until := 0
  running_timers := []
  sent_msgs := []
  warns := 0

/- ──────────────────────────────────────────────────────────────────────
   Send Arbiter: type_and_send.  The DOM's behaviour on the i-th loop
   iteration is an oracle value: the cooldown toast was already visible
   (`continue` before typing), the typing raised (`except` branch), the
   toast appeared right after submitting, or the attempt succeeded.
   Time is threaded explicitly: the function enters at `now` and every
   `asyncio.sleep` advances the clock by the slept amount.
   ────────────────────────────────────────────────────────────────────── -/

inductive AttemptOutcome
  | toastBefore
  | raiseDuring
  | toastAfter
  | success
deriving DecidableEq

structure SendResult where
  sent : Bool
  warned : Bool
  slept : List Int
deriving DecidableEq

/-- Backoff update min(backoff * 1.6, 6.0), in ticks. -/
def nextBackoff (backoff : Int) : Int := min (backoff * 8 / 5) (6 * SEC)

/-- The `for _ in range(MAX_RETRY)` retry loop.  `fuel` counts remaining
iterations, `i` indexes the oracle, `backoff` is the current backoff.
Returns the state, the observable result (with the sequence of backoff
sleeps performed), and the clock after the call. -/
def sendLoop (env : ℕ → AttemptOutcome) (text : List Char) :
    ℕ → ℕ → Int → Int → BotState → BotState × SendResult × Int
  | 0, _, _, t, st =>
    ({ st with warns := st.warns + 1 }, ⟨false, true, []⟩, t)
  | fuel + 1, i, backoff, t, st =>
    match env i with
    | .success =>
      let t1 := t + 12000
      ({ st with last_send_ts := t1, sent_msgs := text :: st.sent_msgs },
       ⟨true, false, []⟩, t1 + 5000)
    | .toastBefore =>
      let r := sendLoop env text fuel (i + 1) (nextBackoff backoff) (t + backoff)
          { st with cooldown_until := t + backoff }
      (r.1, { r.2.1 with slept := backoff :: r.2.1.slept }, r.2.2)
    | .raiseDuring =>
      let r := sendLoop env text fuel (i + 1) (nextBackoff backoff) (t + backoff)
          { st with cooldown_until := t + backoff }
      (r.1, { r.2.1 with slept := backoff :: r.2.1.slept }, r.2.2)
    | .toastAfter =>
      let r := sendLoop env text fuel (i + 1) (nextBackoff backoff) (t + 12000 + backoff)
          { st with cooldown_until := t + 12000 + backoff }
      (r.1, { r.2.1 with slept := backoff :: r.2.1.slept }, r.2.2)

/-- Model of `type_and_send`: wait out the cooldown window, enforce the minimum
inter-send gap, locate the input control (`present` is the
`query_selector` outcome; absent aborts with a warning and no retry),
then run the bounded retry loop with backoff starting at 0.8 s. -/
def type_and_send (env : ℕ → AttemptOutcome) (present : Bool) (text : List Char)
    (now : Int) (st : BotState) : BotState × SendResult × Int :=
  let t0 := max now st.cooldown_until
  let t1 := if t0 - st.last_send_ts < MIN_SEND_INTERVAL
            then st.last_send_ts + MIN_SEND_INTERVAL else t0
  if present then sendLoop env text MAX_RETRY 0 80000 t1 st
  else ({ st with warns := st.warns + 1 }, ⟨false, true, []⟩, t1)

/- ──────────────────────────────────────────────────────────────────────
   Break Timer Manager: start_break.
   ────────────────────────────────────────────────────────────────────── -/

structure BreakResult where
  ok : Bool
  reason : Option (List Char)
deriving DecidableEq

def clampMinutes (m : Int) : Int := max 1 (min m 180)

/-- The requester+duration guard key: who, a double colon, the minutes (an f-string in the source). -/
def guardKey (who : List Char) (m : Int) : List Char :=
  who ++ "::".data ++ (toString m).data

/-- One of the `START_TPL` announcement phrasings; `tpl` is the
`random.choice` outcome.  Every phrasing embeds the duration and the
requester. -/
def startTpl (tpl : ℕ) (m : Int) (who : List Char) : List Char :=
  match tpl % 3 with
  | 0 => "#휴식 ".data ++ (toString m).data ++ "분 시작 - by ".data ++ who
  | 1 => "⏱️ ".data ++ (toString m).data ++ "분 쉬어요!! - ".data ++ who
  | _ => "휴식 ".data ++ (toString m).data ++ "분 가즈아~ 🙌 - ".data ++ who

/-- Model of `BreakBot.start_break`: clamp, consult the global duration guard,
record it, consult the requester+duration guard, record it, send the
start announcement, register the timer (the timer body — sleep then the
end announcement — fires after the break and is outside this step).
Translated statement by statement from the source; note the source
records `minute_global_guard[minutes] = now` immediately after the
global check, before the requester+duration check runs. -/
def start_break (env : ℕ → AttemptOutcome) (present : Bool) (tpl : ℕ)
    (st : BotState) (now : Int) (minutes : Int) (who : List Char) :
    BotState × BreakResult :=
  let m := clampMinutes minutes
  if now - st.minute_global_guard m < GLOBAL_MINUTE_GUARD then
    (st, ⟨false, some "minute-guard".data⟩)
  else
    let st1 := { st with
      minute_global_guard := fun k => if k = m then now else st.minute_global_guard k }
    let gk := guardKey who m
    if now - st1.cmd_guard gk < CMD_GUARD_TTL then
      (st1, ⟨false, some "user-minute-guard".data⟩)
    else
      let st2 := { st1 with
        cmd_guard := fun k => if k = gk then now else st1.cmd_guard k }
      let st3 := (type_and_send env present (startTpl tpl m who) now st2).1
      ({ st3 with running_timers := (m, who) :: st3.running_timers },
       ⟨true, none⟩)

/- ──────────────────────────────────────────────────────────────────────
   Chat-item handler.
   ────────────────────────────────────────────────────────────────────── -/

/-- Self-echo test: sender present and equal (stripped) to the bot name. -/
def isSelfEcho (sender : Option (List Char)) : Bool :=
  match sender with
  | some s => pyStrip s == pyStrip BOT_NAME
  | none => false

/-- Substring test for the bot's own start/end phrasing (the two in-checks of the source). -/
def noiseEcho (t : List Char) : Bool :=
  containsSub "시작 - by".data t || containsSub "종료 - ".data t

/-- One alternative of `START_NOISE_RE`:
`#?\s*휴식\s*\d+\s*분\s*시작\s*-\s*by` (case-insensitive `by`). -/
def noiseAlt1 (l : List Char) : Bool :=
  let l1 := if startsList "#".data l then l.drop 1 else l
  let l2 := l1.dropWhile pySpace
  if startsList "휴식".data l2 then
    let l3 := (l2.drop 2).dropWhile pySpace
    let ds := l3.takeWhile isDig
    if ds.isEmpty then false
    else
      let l4 := (l3.drop ds.length).dropWhile pySpace
      if startsList "분".data l4 then
        let l5 := (l4.drop 1).dropWhile pySpace
        if startsList "시작".data l5 then
          let l6 := (l5.drop 2).dropWhile pySpace
          if startsList "-".data l6 then
            match (l6.drop 1).dropWhile pySpace with
            | c1 :: c2 :: _ => c1.toLower == 'b' && c2.toLower == 'y'
            | _ => false
          else false
        else false
      else false
  else false

/-- Noise alternative: digits, unit word, then the variant start phrase. -/
def noiseAlt2 (l : List Char) : Bool :=
  let ds := l.takeWhile isDig
  if ds.isEmpty then false
  else
    let l1 := (l.drop ds.length).dropWhile pySpace
    if startsList "분".data l1 then
      startsList "쉬어요".data ((l1.drop 1).dropWhile pySpace)
    else false

/-- Noise alternative: the guidance phrasing, first form. -/
def noiseAlt4 (l : List Char) : Bool :=
  if startsList "처럼".data l then
    let l1 := (l.drop 2).dropWhile pySpace
    if startsList "입력".data l1 then
      startsList "하면".data (l1.drop 2) || startsList "해".data (l1.drop 2)
    else false
  else false

/-- Noise alternative: the guidance phrasing, second form. -/
def noiseAlt5 (l : List Char) : Bool :=
  if startsList "입력하면".data l then
    startsList "타이머".data ((l.drop 4).dropWhile pySpace)
  else false

/-- Search of START_NOISE_RE: some suffix starts with one of the five
alternatives (`가즈아` is a plain substring). -/
def start_noise_search (l : List Char) : Bool :=
  searchAny (fun suf =>
    noiseAlt1 suf || noiseAlt2 suf || startsList "가즈아".data suf ||
    noiseAlt4 suf || noiseAlt5 suf) l

/-- The same-sentence guard key `re.sub(r'\s+', ' ', t.lower())`. -/
def textKey (t : List Char) : List Char := collapseWs (pyLower t)

/-- One of the `BACK_TPL` short replies. -/
def backTpl (tpl : ℕ) : List Char :=
  match tpl % 4 with
  | 0 => "넵".data
  | 1 => "넵!!".data
  | 2 => "복귀 확인! 👋".data
  | _ => "이제 공부 ㄱㄱ 🚀".data

inductive HandleOutcome
  | ignoredSelf
  | ignoredNoise
  | ignoredDigits
  | backReplied
  | backSuppressed
  | ignoredDup
  | noCommand
  | started (r : BreakResult)
deriving DecidableEq

/-- Model of `BreakBot.handle_chat_item`: the per-message state machine.  Checked
in source order: self echo, own start/end phrasing, noise regex, pure
digits, return acknowledgement (2s cooldown), same-sentence 10s guard
(recorded before normalization), normalization, clamp, attribution
backfill (0.25s sleep advances the clock when the sender is unknown),
then `start_break`. -/
def handle_chat_item (env : ℕ → AttemptOutcome) (present : Bool)
    (tplS tplB : ℕ) (st : BotState) (now : Int)
    (text : List Char) (sender : Option (List Char)) :
    BotState × HandleOutcome :=
  let t := pyStrip text
  if isSelfEcho sender then (st, .ignoredSelf)
  else if noiseEcho t then (st, .ignoredNoise)
  else if start_noise_search t then (st, .ignoredNoise)
  else if pyIsDigit t then (st, .ignoredDigits)
  else if containsSub "복귀".data t then
    if st.back_cooldown ≤ now then
      ((type_and_send env present (backTpl tplB) now
          { st with back_cooldown := now + 2 * SEC }).1, .backReplied)
    else (st, .backSuppressed)
  else
    let key := textKey t
    if now - st.cmd_text_guard key < 10 * SEC then (st, .ignoredDup)
    else
      let st1 := { st with
        cmd_text_guard := fun k => if k = key then now else st.cmd_text_guard k }
      match normalize_cmd_text t with
      | none => (st1, .noCommand)
      | some n =>
        let m : Int := max 1 (min (n : Int) 180)
        let p : Option (List Char) × Int :=
          match sender with
          | none =>
            (match st1.recent_sender with
             | some s => if (now + 25000) - s.2 ≤ RECENT_NAME_SEC then some s.1 else none
             | none => none, now + 25000)
          | some s => (some s, now)
        let who :=
          match p.1 with
          | some s => s
          | none =>
            match st1.recent_sender with
            | some s => if p.2 - s.2 ≤ RECENT_NAME_SEC then s.1 else "누군가".data
            | none => "누군가".data
        let r := start_break env present tplS st1 p.2 m who
        (r.1, .started r.2)

/- ──────────────────────────────────────────────────────────────────────
   Event Cursor / Feed Scanner.
   ────────────────────────────────────────────────────────────────────── -/

/-- One rendered chat bubble: its `data-bot-seen` consumed marker and its
`inner_text`. -/
structure Bubble where
  seen : Bool
  content : List Char
deriving DecidableEq

/-- Where (if anywhere) the DOM interaction for this item raised:
before the marker write (`get_attribute` / `inner_text`), at the marker
write itself (`evaluate`), or nowhere.  The per-item `except` swallows
the exception either way. -/
inductive Fault
  | beforeMark
  | atMark
  | clean
deriving DecidableEq

/-- Sender/body split of a bubble's (stripped) text, lines 344-348:
first line is the sender when it is short, not command-shaped, and more
lines follow. -/
def splitSenderMsg (content : List Char) : Option (List Char) × List Char :=
  let parts := ((splitNl content).map pyStrip).filter (fun p => !p.isEmpty)
  match parts with
  | p0 :: p1 :: rest =>
    if decide (p0.length ≤ 32) && !startsList "#".data p0 &&
        !containsSub "분".data p0 && !containsSub "휴식".data p0 then
      (some p0, joinNl (p1 :: rest))
    else (none, content)
  | _ => (none, content)

/-- The sender+message TTL-guard key: stripped sender (or the literal unknown), a double colon, the stripped message. -/
def scanKey (sender : Option (List Char)) (msg : List Char) : List Char :=
  pyStrip (match sender with | some s => s | none => "unknown".data) ++
    "::".data ++ pyStrip msg

/-- The message-only TTL-guard key `msg.strip().lower()`. -/
def scanKey2 (msg : List Char) : List Char := pyLower (pyStrip msg)

/-- Fallback attribution: keep the
structural split's sender, else fall back to the DOM walk's result. -/
def resolveSender (split attrib : Option (List Char)) : Option (List Char) :=
  match split with
  | some s => some s
  | none => attrib

/-- The body of a scan iteration after the consumed marker was written:
skip empty content, split sender/body (`attrib` is the DOM sibling-walk
fallback's result), refresh the recent-sender cache, consult the
sender+message and message-only TTL guards, record both, dispatch.
Returns the state and whether the item was dispatched to the handler. -/
def scan_clean (env : ℕ → AttemptOutcome) (present : Bool) (tplS tplB : ℕ)
    (attrib : Option (List Char)) (st : BotState) (now : Int)
    (content : List Char) : BotState × Bool :=
  if content.isEmpty then (st, false)
  else
    let sm := splitSenderMsg content
    let sender := resolveSender sm.1 attrib
    let st1 := { st with recent_sender :=
      match sender with | some s => some (s, now) | none => st.recent_sender }
    let k := scanKey sender sm.2
    let k2 := scanKey2 sm.2
    if now - st1.trigger_seen k < SENDER_MSG_TTL then (st1, false)
    else if now - st1.msg_seen k2 < MSG_ONLY_TTL then (st1, false)
    else
      let st2 := { st1 with
        trigger_seen := fun x => if x = k then now else st1.trigger_seen x,
        msg_seen := fun x => if x = k2 then now else st1.msg_seen x }
      ((handle_chat_item env present tplS tplB st2 now sm.2 sender).1, true)

/-- One feed item inside one poll cycle (scan_loop lines 330-369): skip
items already marked consumed; read the content, write the consumed
marker immediately, then process.  A fault before or at the marker write
leaves the item unmarked and undispatched (the per-item `except` catches
it); the marker write always precedes the guard checks and the dispatch. -/
def scan_item (fault : Fault) (attrib : Option (List Char))
    (env : ℕ → AttemptOutcome) (present : Bool) (tplS tplB : ℕ)
    (st : BotState) (now : Int) (b : Bubble) : Bubble × BotState × Bool :=
  if b.seen then (b, st, false)
  else
    match fault with
    | .beforeMark => (b, st, false)
    | .atMark => (b, st, false)
    | .clean =>
      let r := scan_clean env present tplS tplB attrib st now (pyStrip b.content)
      ({ b with seen := true }, r.1, r.2)

/-- The environment one poll cycle presents to one item: the fault
point, the attribution-walk result, the send oracle, the input-control
presence, the template choices, and the cycle's clock. -/
structure PollEnv where
  fault : Fault
  attrib : Option (List Char)
  env : ℕ → AttemptOutcome
  present : Bool
  tplS : ℕ
  tplB : ℕ
  now : Int

/-- Track one feed item through successive poll cycles; counts how often
it is dispatched to the chat-item handler. -/
def runPolls : List PollEnv → Bubble → BotState → ℕ
  | [], _, _ => 0
  | e :: es, b, st =>
    let r := scan_item e.fault e.attrib e.env e.present e.tplS e.tplB st e.now b
    (if r.2.2 then 1 else 0) + runPolls es r.1 r.2.1

/-- Model of `preload_mark_seen` (lines 400-408): for every bubble
visible at bootstrap, attempt the marking `evaluate` inside a per-bubble
try/except.  Each bubble is paired with the outcome of its own marking
call: `true` means the evaluate succeeded and the consumed marker was
written, `false` means it raised — the `except` swallows the exception
and the bubble is left exactly as it was (in particular unmarked).  No
bubble is dispatched by this pass. -/
def preload_mark_seen (bs : List (Bubble × Bool)) : List Bubble :=
  bs.map (fun p => if p.2 then { p.1 with seen := true } else p.1)

/-- A send oracle on which every attempt succeeds. -/
def envS : ℕ → AttemptOutcome := fun _ => .success

/-- A send oracle on which the rate-limit toast is visible on every
attempt. -/
def envT : ℕ → AttemptOutcome := fun _ => .toastBefore

/-- A bot state in which 철수 asked for a 20 minute break 5 seconds ago
(so the requester+duration guard is warm) while the global duration
guard is cold. -/
def c3State : BotState :=
  { initState with cmd_guard := fun k => if k = "철수::20".data then 95 * SEC else 0 }

/-- The backoff-sleep sequence a run of `fuel` failed attempts performs,
starting from `backoff`. -/
def sleptSeq : ℕ → Int → List Int
  | 0, _ => []
  | n + 1, backoff => backoff :: sleptSeq n (nextBackoff backoff)

/- ──────────────────────────────────────────────────────────────────────
   Frame lemmas: which state fields each operation leaves untouched.
   ────────────────────────────────────────────────────────────────────── -/

theorem sendLoop_preserves (env : ℕ → AttemptOutcome) (text : List Char) :
    ∀ (fuel i : ℕ) (backoff t : Int) (st : BotState),
      (sendLoop env text fuel i backoff t st).1.trigger_seen = st.trigger_seen ∧
      (sendLoop env text fuel i backoff t st).1.msg_seen = st.msg_seen ∧
      (sendLoop env text fuel i backoff t st).1.cmd_guard = st.cmd_guard ∧
      (sendLoop env text fuel i backoff t st).1.cmd_text_guard = st.cmd_text_guard ∧
      (sendLoop env text fuel i backoff t st).1.minute_global_guard = st.minute_global_guard ∧
      (sendLoop env text fuel i backoff t st).1.recent_sender = st.recent_sender ∧
      (sendLoop env text fuel i backoff t st).1.back_cooldown = st.back_cooldown ∧
      (sendLoop env text fuel i backoff t st).1.running_timers = st.running_timers := by
  intro fuel
  induction fuel with
  | zero => intro i backoff t st; simp [sendLoop]
  | succ n ih =>
    intro i backoff t st
    cases h : env i with
    | success => simp [sendLoop, h]
    | toastBefore => simpa [sendLoop, h] using ih (i + 1) (nextBackoff backoff) (t + backoff) _
    | raiseDuring => simpa [sendLoop, h] using ih (i + 1) (nextBackoff backoff) (t + backoff) _
    | toastAfter =>
      simpa [sendLoop, h] using ih (i + 1) (nextBackoff backoff) (t + 12000 + backoff) _

theorem type_and_send_trigger_seen (env : ℕ → AttemptOutcome) (present : Bool)
    (text : List Char) (now : Int) (st : BotState) :
    (type_and_send env present text now st).1.trigger_seen = st.trigger_seen := by
  cases present with
  | false => simp [type_and_send]
  | true => simpa [type_and_send] using (sendLoop_preserves env text MAX_RETRY 0 80000 _ st).1

theorem type_and_send_msg_seen (env : ℕ → AttemptOutcome) (present : Bool)
    (text : List Char) (now : Int) (st : BotState) :
    (type_and_send env present text now st).1.msg_seen = st.msg_seen := by
  cases present with
  | false => simp [type_and_send]
  | true => simpa [type_and_send] using (sendLoop_preserves env text MAX_RETRY 0 80000 _ st).2.1

theorem type_and_send_cmd_guard (env : ℕ → AttemptOutcome) (present : Bool)
    (text : List Char) (now : Int) (st : BotState) :
    (type_and_send env present text now st).1.cmd_guard = st.cmd_guard := by
  cases present with
  | false => simp [type_and_send]
  | true =>
    simpa [type_and_send] using (sendLoop_preserves env text MAX_RETRY 0 80000 _ st).2.2.1

theorem type_and_send_cmd_text_guard (env : ℕ → AttemptOutcome) (present : Bool)
    (text : List Char) (now : Int) (st : BotState) :
    (type_and_send env present text now st).1.cmd_text_guard = st.cmd_text_guard := by
  cases present with
  | false => simp [type_and_send]
  | true =>
    simpa [type_and_send] using (sendLoop_preserves env text MAX_RETRY 0 80000 _ st).2.2.2.1

theorem type_and_send_minute_global_guard (env : ℕ → AttemptOutcome) (present : Bool)
    (text : List Char) (now : Int) (st : BotState) :
    (type_and_send env present text now st).1.minute_global_guard = st.minute_global_guard := by
  cases present with
  | false => simp [type_and_send]
  | true =>
    simpa [type_and_send] using (sendLoop_preserves env text MAX_RETRY 0 80000 _ st).2.2.2.2.1

theorem type_and_send_recent_sender (env : ℕ → AttemptOutcome) (present : Bool)
    (text : List Char) (now : Int) (st : BotState) :
    (type_and_send env present text now st).1.recent_sender = st.recent_sender := by
  cases present with
  | false => simp [type_and_send]
  | true =>
    simpa [type_and_send] using
      (sendLoop_preserves env text MAX_RETRY 0 80000 _ st).2.2.2.2.2.1

theorem type_and_send_back_cooldown (env : ℕ → AttemptOutcome) (present : Bool)
    (text : List Char) (now : Int) (st : BotState) :
    (type_and_send env present text now st).1.back_cooldown = st.back_cooldown := by
  cases present with
  | false => simp [type_and_send]
  | true =>
    simpa [type_and_send] using
      (sendLoop_preserves env text MAX_RETRY 0 80000 _ st).2.2.2.2.2.2.1

theorem type_and_send_running_timers (env : ℕ → AttemptOutcome) (present : Bool)
    (text : List Char) (now : Int) (st : BotState) :
    (type_and_send env present text now st).1.running_timers = st.running_timers := by
  cases present with
  | false => simp [type_and_send]
  | true =>
    simpa [type_and_send] using
      (sendLoop_preserves env text MAX_RETRY 0 80000 _ st).2.2.2.2.2.2.2

theorem start_break_trigger_seen (env : ℕ → AttemptOutcome) (present : Bool) (tpl : ℕ)
    (st : BotState) (now : Int) (m : Int) (who : List Char) :
    (start_break env present tpl st now m who).1.trigger_seen = st.trigger_seen := by
  simp only [start_break]
  split_ifs <;> simp [type_and_send_trigger_seen]

theorem start_break_msg_seen (env : ℕ → AttemptOutcome) (present : Bool) (tpl : ℕ)
    (st : BotState) (now : Int) (m : Int) (who : List Char) :
    (start_break env present tpl st now m who).1.msg_seen = st.msg_seen := by
  simp only [start_break]
  split_ifs <;> simp [type_and_send_msg_seen]

theorem start_break_cmd_text_guard (env : ℕ → AttemptOutcome) (present : Bool) (tpl : ℕ)
    (st : BotState) (now : Int) (m : Int) (who : List Char) :
    (start_break env present tpl st now m who).1.cmd_text_guard = st.cmd_text_guard := by
  simp only [start_break]
  split_ifs <;> simp [type_and_send_cmd_text_guard]

theorem handle_chat_item_trigger_seen (env : ℕ → AttemptOutcome) (present : Bool)
    (tplS tplB : ℕ) (st : BotState) (now : Int)
    (text : List Char) (sender : Option (List Char)) :
    (handle_chat_item env present tplS tplB st now text sender).1.trigger_seen
      = st.trigger_seen := by
  simp only [handle_chat_item]
  split_ifs <;> try rfl
  · simp [type_and_send_trigger_seen]
  · cases hn : normalize_cmd_text (pyStrip text) with
    | none => simp [hn]
    | some n => simp [hn, start_break_trigger_seen]

theorem handle_chat_item_msg_seen (env : ℕ → AttemptOutcome) (present : Bool)
    (tplS tplB : ℕ) (st : BotState) (now : Int)
    (text : List Char) (sender : Option (List Char)) :
    (handle_chat_item env present tplS tplB st now text sender).1.msg_seen
      = st.msg_seen := by
  simp only [handle_chat_item]
  split_ifs <;> try rfl
  · simp [type_and_send_msg_seen]
  · cases hn : normalize_cmd_text (pyStrip text) with
    | none => simp [hn]
    | some n => simp [hn, start_break_msg_seen]

/- ──────────────────────────────────────────────────────────────────────
   start_break branch characterizations.
   ────────────────────────────────────────────────────────────────────── -/

theorem start_break_global_hit (env : ℕ → AttemptOutcome) (present : Bool) (tpl : ℕ)
    (st : BotState) (now : Int) (m : Int) (who : List Char)
    (h : now - st.minute_global_guard (clampMinutes m) < GLOBAL_MINUTE_GUARD) :
    start_break env present tpl st now m who = (st, ⟨false, some "minute-guard".data⟩) := by
  simp [start_break, h]

theorem start_break_pass (env : ℕ → AttemptOutcome) (present : Bool) (tpl : ℕ)
    (st : BotState) (now : Int) (m : Int) (who : List Char)
    (hg : GLOBAL_MINUTE_GUARD ≤ now - st.minute_global_guard (clampMinutes m))
    (hu : CMD_GUARD_TTL ≤ now - st.cmd_guard (guardKey who (clampMinutes m))) :
    (start_break env present tpl st now m who).2 = ⟨true, none⟩ ∧
    (start_break env present tpl st now m who).1.minute_global_guard (clampMinutes m) = now ∧
    (start_break env present tpl st now m who).1.running_timers
      = (clampMinutes m, who) :: st.running_timers := by
  have h1 : ¬ (now - st.minute_global_guard (clampMinutes m) < GLOBAL_MINUTE_GUARD) := by omega
  have h2 : ¬ (now - st.cmd_guard (guardKey who (clampMinutes m)) < CMD_GUARD_TTL) := by omega
  refine ⟨?_, ?_, ?_⟩ <;>
    simp [start_break, h1, h2, type_and_send_minute_global_guard, type_and_send_running_timers]

theorem clampMinutes_idem (m : Int) : clampMinutes (clampMinutes m) = clampMinutes m := by
  unfold clampMinutes; omega

/- ──────────────────────────────────────────────────────────────────────
   Claim theorems.
   ────────────────────────────────────────────────────────────────────── -/

/-- C8: `start_break` clamps its duration argument into [1,180] before
consulting any guard: the whole call (guard keys, announcement, timer,
result) is identical to the call on the clamped duration; in particular
a direct break-start with duration 300 behaves identically to one with
duration 180. -/
theorem start_break_clamps_first (env : ℕ → AttemptOutcome) (present : Bool)
    (tpl : ℕ) (st : BotState) (now : Int) (m : Int) (who : List Char) :
    start_break env present tpl st now m who
      = start_break env present tpl st now (clampMinutes m) who ∧
    start_break env present tpl st now 300 who
      = start_break env present tpl st now 180 who := by
  constructor
  · simp only [start_break, clampMinutes_idem]
  · have h : clampMinutes 300 = clampMinutes 180 := by unfold clampMinutes; omega
    simp only [start_break, h]

/-- C1: two `start_break` invocations with the same clamped duration,
the second within the 10 s global-duration guard TTL of the first and
with an arbitrary (possibly different) requester: when the first call's
guards are cold it starts a timer and returns success, and the second
call returns the "minute-guard" rejection and leaves the state — in
particular the timer set — untouched. -/
theorem global_guard_first_wins (env1 env2 : ℕ → AttemptOutcome)
    (present1 present2 : Bool) (tpl1 tpl2 : ℕ) (st : BotState)
    (t1 t2 : Int) (m1 m2 : Int) (who1 who2 : List Char)
    (hclamp : clampMinutes m1 = clampMinutes m2)
    (hg : GLOBAL_MINUTE_GUARD ≤ t1 - st.minute_global_guard (clampMinutes m1))
    (hu : CMD_GUARD_TTL ≤ t1 - st.cmd_guard (guardKey who1 (clampMinutes m1)))
    (hwin : t2 - t1 < GLOBAL_MINUTE_GUARD) :
    (start_break env1 present1 tpl1 st t1 m1 who1).2 = ⟨true, none⟩ ∧
    (start_break env1 present1 tpl1 st t1 m1 who1).1.running_timers
      = (clampMinutes m1, who1) :: st.running_timers ∧
    start_break env2 present2 tpl2
        ((start_break env1 present1 tpl1 st t1 m1 who1).1) t2 m2 who2
      = ((start_break env1 present1 tpl1 st t1 m1 who1).1,
         ⟨false, some "minute-guard".data⟩) := by
  obtain ⟨ha, hb, hc⟩ := start_break_pass env1 present1 tpl1 st t1 m1 who1 hg hu
  refine ⟨ha, hc, ?_⟩
  apply start_break_global_hit
  rw [← hclamp, hb]
  omega

theorem global_guard_first_wins_witness :
    (start_break envS true 0 initState (100 * SEC) 20 "철수".data).2 = ⟨true, none⟩ ∧
    (start_break envS true 0 ((start_break envS true 0 initState (100 * SEC) 20
        "철수".data).1) (105 * SEC) 20 "영희".data).2
      = ⟨false, some "minute-guard".data⟩ := by
  obtain ⟨h1, h2, h3⟩ := global_guard_first_wins envS envS true true 0 0 initState
    (100 * SEC) (105 * SEC) 20 20 "철수".data "영희".data rfl
    (by decide) (by decide) (by decide)
  exact ⟨h1, by rw [h3]⟩

/-- C3 counterexample: with the requester+duration guard warm for
철수::20 (5 s old, inside its 15 s TTL) and the global guard cold, a
`start_break` call at t = 100 s is refused with the
"user-minute-guard" reason — yet the global-duration guard table, which
the claim says is left unchanged by such a refusal, has been updated
from 0 to the call's timestamp. -/
theorem user_guard_refusal_updates_global_guard :
    (start_break envS true 0 c3State (100 * SEC) 20 "철수".data).2
      = ⟨false, some "user-minute-guard".data⟩ ∧
    c3State.minute_global_guard 20 = 0 ∧
    (start_break envS true 0 c3State (100 * SEC) 20 "철수".data).1.minute_global_guard 20
      = 100 * SEC := by
  decide

/-- C3 (amended): the two guards are consulted in order, global first.
A call refused by the global-duration guard leaves the state unchanged;
a call refused by the requester+duration guard returns the
"user-minute-guard" failure reason, leaves the requester+duration table
unchanged and starts no timer, but has already recorded the
global-duration timestamp as "now"; only a call that passes both checks
records the requester+duration timestamp. -/
theorem guard_update_order (env : ℕ → AttemptOutcome) (present : Bool) (tpl : ℕ)
    (st : BotState) (now : Int) (m : Int) (who : List Char) :
    (((start_break env present tpl st now m who).2).reason = some "minute-guard".data →
      start_break env present tpl st now m who
        = (st, ⟨false, some "minute-guard".data⟩)) ∧
    (((start_break env present tpl st now m who).2).reason = some "user-minute-guard".data →
      (start_break env present tpl st now m who).1.cmd_guard = st.cmd_guard ∧
      (start_break env present tpl st now m who).1.minute_global_guard
        = (fun k => if k = clampMinutes m then now else st.minute_global_guard k) ∧
      (start_break env present tpl st now m who).1.running_timers = st.running_timers ∧
      ((start_break env present tpl st now m who).2).ok = false) ∧
    (((start_break env present tpl st now m who).2).reason = none →
      (start_break env present tpl st now m who).1.minute_global_guard (clampMinutes m)
        = now ∧
      (start_break env present tpl st now m who).1.cmd_guard (guardKey who (clampMinutes m))
        = now) := by
  by_cases h1 : now - st.minute_global_guard (clampMinutes m) < GLOBAL_MINUTE_GUARD
  · rw [start_break_global_hit env present tpl st now m who h1]
    exact ⟨fun _ => rfl, by intro h; simp at h, by intro h; simp at h⟩
  · by_cases h2 : now - st.cmd_guard (guardKey who (clampMinutes m)) < CMD_GUARD_TTL
    · refine ⟨?_, ?_, ?_⟩
      · intro h
        simp [start_break, h1, h2] at h
      · intro _
        refine ⟨?_, ?_, ?_, ?_⟩ <;> simp [start_break, h1, h2]
      · intro h
        simp [start_break, h1, h2] at h
    · refine ⟨?_, ?_, ?_⟩
      · intro h
        simp [start_break, h1, h2] at h
      · intro h
        simp [start_break, h1, h2] at h
      · intro _
        constructor <;>
          simp [start_break, h1, h2, type_and_send_minute_global_guard,
            type_and_send_cmd_guard]

theorem guard_update_order_witness :
    (start_break envS true 0 c3State (100 * SEC) 20 "철수".data).1.cmd_guard
      = c3State.cmd_guard ∧
    (start_break envS true 0 c3State (100 * SEC) 20 "철수".data).1.running_timers = [] := by
  obtain ⟨_, h2, _⟩ := guard_update_order envS true 0 c3State (100 * SEC) 20 "철수".data
  obtain ⟨a, _, c, _⟩ := h2 (by decide)
  exact ⟨a, by rw [c]; rfl⟩

/- ──────────────────────────────────────────────────────────────────────
   Send Arbiter lemmas for C7.
   ────────────────────────────────────────────────────────────────────── -/

theorem sendLoop_congr (env env' : ℕ → AttemptOutcome) (text : List Char) :
    ∀ (fuel i : ℕ) (backoff t : Int) (st : BotState),
      (∀ j, j < i + fuel → env j = env' j) →
      sendLoop env text fuel i backoff t st = sendLoop env' text fuel i backoff t st := by
  intro fuel
  induction fuel with
  | zero => intro i backoff t st _; simp [sendLoop]
  | succ n ih =>
    intro i backoff t st h
    have he : env' i = env i := (h i (by omega)).symm
    have hr : ∀ j, j < (i + 1) + n → env j = env' j := fun j hj => h j (by omega)
    cases hv : env i with
    | success => simp [sendLoop, hv, he]
    | toastBefore => simp [sendLoop, hv, he, ih (i + 1) _ _ _ hr]
    | raiseDuring => simp [sendLoop, hv, he, ih (i + 1) _ _ _ hr]
    | toastAfter => simp [sendLoop, hv, he, ih (i + 1) _ _ _ hr]

theorem sendLoop_allfail (env : ℕ → AttemptOutcome) (text : List Char)
    (hfail : ∀ j, env j ≠ AttemptOutcome.success) :
    ∀ (fuel i : ℕ) (backoff t : Int) (st : BotState),
      (sendLoop env text fuel i backoff t st).2.1 = ⟨false, true, sleptSeq fuel backoff⟩ ∧
      (sendLoop env text fuel i backoff t st).1.sent_msgs = st.sent_msgs ∧
      (sendLoop env text fuel i backoff t st).1.warns = st.warns + 1 := by
  intro fuel
  induction fuel with
  | zero => intro i backoff t st; simp [sendLoop, sleptSeq]
  | succ n ih =>
    intro i backoff t st
    cases hv : env i with
    | success => exact absurd hv (hfail i)
    | toastBefore =>
      obtain ⟨a, b, c⟩ := ih (i + 1) (nextBackoff backoff) (t + backoff)
        { st with cooldown_until := t + backoff }
      simp [sendLoop, hv, sleptSeq, a, b, c]
    | raiseDuring =>
      obtain ⟨a, b, c⟩ := ih (i + 1) (nextBackoff backoff) (t + backoff)
        { st with cooldown_until := t + backoff }
      simp [sendLoop, hv, sleptSeq, a, b, c]
    | toastAfter =>
      obtain ⟨a, b, c⟩ := ih (i + 1) (nextBackoff backoff) (t + 12000 + backoff)
        { st with cooldown_until := t + 12000 + backoff }
      simp [sendLoop, hv, sleptSeq, a, b, c]

theorem start_break_sent_msgs_nosend (env : ℕ → AttemptOutcome) (present : Bool)
    (tpl : ℕ) (st : BotState) (now : Int) (m : Int) (who : List Char)
    (hfail : ∀ j, env j ≠ AttemptOutcome.success) :
    (start_break env present tpl st now m who).1.sent_msgs = st.sent_msgs := by
  have hts : ∀ (text : List Char) (t : Int) (s : BotState),
      (type_and_send env present text t s).1.sent_msgs = s.sent_msgs := by
    intro text t s
    cases present with
    | false => simp [type_and_send]
    | true =>
      simpa [type_and_send] using
        (sendLoop_allfail env text hfail MAX_RETRY 0 80000 _ s).2.1
  simp only [start_break]
  split_ifs <;> simp [hts]

/-- C7: the Send Arbiter's retry loop is bounded and silent.  (1) The
result of `type_and_send` depends on the DOM oracle only through its
first `MAX_RETRY = 10` attempts.  (2) When every attempt fails (toast
visible before typing, exception while typing, or toast right after
submitting), the call reports no send, logs exactly one warning, and has
slept the exponential-backoff sequence 0.8·1.6ᵏ s capped at 6 s —
returning normally rather than raising.  (3) An enclosing `start_break`
whose guards pass still returns the success acknowledgement even though
the announcement never reached the room. -/
theorem send_bounded_retry_no_escape (env env' : ℕ → AttemptOutcome)
    (present : Bool) (text : List Char) (now : Int) (st : BotState)
    (tpl : ℕ) (m : Int) (who : List Char) :
    ((∀ i, i < MAX_RETRY → env i = env' i) →
      type_and_send env present text now st = type_and_send env' present text now st) ∧
    ((∀ i, env i ≠ AttemptOutcome.success) →
      (type_and_send env true text now st).2.1
        = ⟨false, true, [80000, 128000, 204800, 327680, 524288,
                         600000, 600000, 600000, 600000, 600000]⟩ ∧
      (type_and_send env true text now st).1.sent_msgs = st.sent_msgs ∧
      (type_and_send env true text now st).1.warns = st.warns + 1) ∧
    ((∀ i, env i ≠ AttemptOutcome.success) →
      GLOBAL_MINUTE_GUARD ≤ now - st.minute_global_guard (clampMinutes m) →
      CMD_GUARD_TTL ≤ now - st.cmd_guard (guardKey who (clampMinutes m)) →
      (start_break env present tpl st now m who).2 = ⟨true, none⟩ ∧
      (start_break env present tpl st now m who).1.sent_msgs = st.sent_msgs) := by
  refine ⟨?_, ?_, ?_⟩
  · intro h
    cases present with
    | false => rfl
    | true =>
      simp only [type_and_send]
      rw [sendLoop_congr env env' text MAX_RETRY 0 80000 _ st (fun j hj => h j (by omega))]
  · intro hfail
    obtain ⟨a, b, c⟩ := sendLoop_allfail env text hfail MAX_RETRY 0 80000
      (if (max now st.cooldown_until) - st.last_send_ts < MIN_SEND_INTERVAL
       then st.last_send_ts + MIN_SEND_INTERVAL else (max now st.cooldown_until)) st
    refine ⟨?_, ?_, ?_⟩
    · simp only [type_and_send, if_true]
      simp [a]
      decide
    · simp only [type_and_send, if_true]
      simp [b]
    · simp only [type_and_send, if_true]
      simp [c]
  · intro hfail hg hu
    exact ⟨(start_break_pass env present tpl st now m who hg hu).1,
           start_break_sent_msgs_nosend env present tpl st now m who hfail⟩

theorem envT_ne_success : ∀ i, envT i ≠ AttemptOutcome.success := by
  intro i h
  simp [envT] at h

/- ──────────────────────────────────────────────────────────────────────
   Scanner lemmas for C2, C6, C9, C10.
   ────────────────────────────────────────────────────────────────────── -/

theorem scan_item_of_seen (fault : Fault) (attrib : Option (List Char))
    (env : ℕ → AttemptOutcome) (present : Bool) (tplS tplB : ℕ)
    (st : BotState) (now : Int) (b : Bubble) (h : b.seen = true) :
    scan_item fault attrib env present tplS tplB st now b = (b, st, false) := by
  simp [scan_item, h]

theorem scan_item_marks (fault : Fault) (attrib : Option (List Char))
    (env : ℕ → AttemptOutcome) (present : Bool) (tplS tplB : ℕ)
    (st : BotState) (now : Int) (b : Bubble)
    (h : (scan_item fault attrib env present tplS tplB st now b).2.2 = true) :
    (scan_item fault attrib env present tplS tplB st now b).1.seen = true := by
  by_cases hb : b.seen
  · rw [scan_item_of_seen fault attrib env present tplS tplB st now b hb] at h ⊢
    simp at h
  · cases fault with
    | beforeMark => simp [scan_item, hb] at h
    | atMark => simp [scan_item, hb] at h
    | clean => simp [scan_item, hb]

theorem runPolls_of_seen (es : List PollEnv) :
    ∀ (b : Bubble) (st : BotState), b.seen = true → runPolls es b st = 0 := by
  induction es with
  | nil => intro b st _; simp [runPolls]
  | cons e es ih =>
    intro b st h
    simp only [runPolls, scan_item_of_seen e.fault e.attrib e.env e.present e.tplS e.tplB
      st e.now b h]
    simpa using ih b st h

theorem runPolls_le_one (es : List PollEnv) :
    ∀ (b : Bubble) (st : BotState), runPolls es b st ≤ 1 := by
  induction es with
  | nil => intro b st; simp [runPolls]
  | cons e es ih =>
    intro b st
    simp only [runPolls]
    by_cases hd : (scan_item e.fault e.attrib e.env e.present e.tplS e.tplB st e.now b).2.2
    · have hm := scan_item_marks e.fault e.attrib e.env e.present e.tplS e.tplB st e.now b hd
      rw [hd, runPolls_of_seen es _ _ hm]
      simp
    · simp only [hd, if_false]
      simpa using ih _ _

/-- C2: once a feed item's consumed marker is set, no later scan cycle
dispatches it; the marker is written before any further processing, so
across any sequence of poll cycles — with arbitrary fault points, send
outcomes and clock readings — one item is dispatched to the chat-item
handler at most once, and an item already marked is never dispatched. -/
theorem feed_item_dispatched_at_most_once (es : List PollEnv) (b : Bubble)
    (st : BotState) :
    runPolls es b st ≤ 1 ∧ (b.seen = true → runPolls es b st = 0) ∧
    (∀ (e : PollEnv) (b' : Bubble) (st' : BotState),
      (scan_item e.fault e.attrib e.env e.present e.tplS e.tplB st' e.now b').2.2 = true →
      (scan_item e.fault e.attrib e.env e.present e.tplS e.tplB st' e.now b').1.seen
        = true) :=
  ⟨runPolls_le_one es b st, runPolls_of_seen es b st,
   fun e b' st' h => scan_item_marks e.fault e.attrib e.env e.present e.tplS e.tplB
     st' e.now b' h⟩

theorem feed_item_dispatched_at_most_once_witness :
    runPolls [⟨.clean, none, envS, true, 0, 0, 100 * SEC⟩,
              ⟨.clean, none, envS, true, 0, 0, 101 * SEC⟩]
        ⟨false, "#휴식 10".data⟩ initState ≤ 1 ∧
    runPolls [⟨.clean, none, envS, true, 0, 0, 100 * SEC⟩]
        ⟨true, "#휴식 10".data⟩ initState = 0 :=
  ⟨(feed_item_dispatched_at_most_once _ _ _).1,
   (feed_item_dispatched_at_most_once _ _ _).2.1 rfl⟩

/-- C6 counterexample: the marking `evaluate` of `preload_mark_seen` is
wrapped in a per-bubble try/except, so a bootstrap-visible bubble whose
marking call raises is left unmarked.  Concretely, for a pre-start
bubble holding the command `"#휴식 10"` whose marking fails, the preload
pass returns it unchanged (still unmarked), and the first subsequent
scan cycle dispatches it to the chat-item handler — indeed a break
timer is started for it, so an event older than process start is acted
upon.  This refutes the claim that every feed item visible at bootstrap
is marked consumed and never dispatched. -/
theorem preload_unmarked_item_dispatched :
    preload_mark_seen [(⟨false, "#휴식 10".data⟩, false)]
      = [⟨false, "#휴식 10".data⟩] ∧
    runPolls [⟨.clean, none, envS, true, 0, 0, 100 * SEC⟩]
      ⟨false, "#휴식 10".data⟩ initState = 1 ∧
    (scan_item .clean none envS true 0 0 initState (100 * SEC)
      ⟨false, "#휴식 10".data⟩).2.1.running_timers ≠ [] := by
  refine ⟨rfl, ?_, ?_⟩ <;> decide

/-- C6 (amended): every feed item visible at bootstrap whose marking
`evaluate` succeeds is returned by `preload_mark_seen` with its
consumed marker set, and no later scan cycle ever dispatches it —
whatever its content, including content that matches a command
pattern; a feed item whose marking `evaluate` raises is returned
exactly as it was (the per-bubble except swallows the exception), so
an unmarked one stays unmarked and remains dispatchable. -/
theorem preload_marked_items_never_dispatched (bs : List (Bubble × Bool))
    (es : List PollEnv) (st : BotState) (b : Bubble)
    (hb : (b, true) ∈ bs) :
    ({ b with seen := true } ∈ preload_mark_seen bs ∧
      runPolls es { b with seen := true } st = 0) ∧
    (∀ c : Bubble, (c, false) ∈ bs → c ∈ preload_mark_seen bs) := by
  refine ⟨⟨?_, runPolls_of_seen es _ st rfl⟩, ?_⟩
  · simp only [preload_mark_seen, List.mem_map]
    exact ⟨(b, true), hb, rfl⟩
  · intro c hc
    simp only [preload_mark_seen, List.mem_map]
    exact ⟨(c, false), hc, rfl⟩

theorem preload_marked_items_never_dispatched_witness :
    ((⟨true, "#10".data⟩ : Bubble) ∈
        preload_mark_seen [(⟨false, "#10".data⟩, true),
          (⟨false, "10분 휴식".data⟩, false)] ∧
      runPolls [⟨.clean, none, envS, true, 0, 0, 100 * SEC⟩]
        ⟨true, "#10".data⟩ initState = 0) ∧
    (⟨false, "10분 휴식".data⟩ : Bubble) ∈
      preload_mark_seen [(⟨false, "#10".data⟩, true),
        (⟨false, "10분 휴식".data⟩, false)] := by
  have h := preload_marked_items_never_dispatched
    [(⟨false, "#10".data⟩, true), (⟨false, "10분 휴식".data⟩, false)]
    [⟨.clean, none, envS, true, 0, 0, 100 * SEC⟩] initState
    ⟨false, "#10".data⟩ (by decide)
  exact ⟨h.1, h.2 ⟨false, "10분 휴식".data⟩ (by decide)⟩

theorem scan_clean_pass (env : ℕ → AttemptOutcome) (present : Bool) (tplS tplB : ℕ)
    (attrib : Option (List Char)) (st : BotState) (now : Int) (content : List Char)
    (hne : content.isEmpty = false)
    (hg1 : SENDER_MSG_TTL ≤ now - st.trigger_seen
      (scanKey (resolveSender (splitSenderMsg content).1 attrib) (splitSenderMsg content).2))
    (hg2 : MSG_ONLY_TTL ≤ now - st.msg_seen (scanKey2 (splitSenderMsg content).2)) :
    (scan_clean env present tplS tplB attrib st now content).2 = true ∧
    (scan_clean env present tplS tplB attrib st now content).1.trigger_seen
      (scanKey (resolveSender (splitSenderMsg content).1 attrib)
        (splitSenderMsg content).2) = now ∧
    (scan_clean env present tplS tplB attrib st now content).1.msg_seen
      (scanKey2 (splitSenderMsg content).2) = now := by
  have h1 : ¬ (now - st.trigger_seen
      (scanKey (resolveSender (splitSenderMsg content).1 attrib)
        (splitSenderMsg content).2) < SENDER_MSG_TTL) := by omega
  have h2 : ¬ (now - st.msg_seen (scanKey2 (splitSenderMsg content).2) < MSG_ONLY_TTL) := by
    omega
  refine ⟨?_, ?_, ?_⟩ <;>
    simp [scan_clean, hne, h1, h2, handle_chat_item_trigger_seen, handle_chat_item_msg_seen]

theorem scan_clean_skip (env : ℕ → AttemptOutcome) (present : Bool) (tplS tplB : ℕ)
    (attrib : Option (List Char)) (st : BotState) (now : Int) (content : List Char)
    (hit : now - st.trigger_seen
        (scanKey (resolveSender (splitSenderMsg content).1 attrib)
          (splitSenderMsg content).2) < SENDER_MSG_TTL ∨
      now - st.msg_seen (scanKey2 (splitSenderMsg content).2) < MSG_ONLY_TTL) :
    (scan_clean env present tplS tplB attrib st now content).2 = false := by
  by_cases hne : content.isEmpty
  · simp [scan_clean, hne]
  · by_cases h1 : now - st.trigger_seen
        (scanKey (resolveSender (splitSenderMsg content).1 attrib)
          (splitSenderMsg content).2) < SENDER_MSG_TTL
    · simp [scan_clean, hne, h1]
    · rcases hit with h | h
      · exact absurd h h1
      · simp [scan_clean, hne, h1, h]

/-- C10: for a novel non-empty feed item that passes both TTL guards,
the scan loop dispatches it and has recorded both the sender+message
guard timestamp (8 s TTL) and the message-only guard timestamp (15 s
TTL) as "now" — whatever the chat-item handler then does with the item,
including ignoring it.  Consequently a later identical item is skipped
undispatched: with the same attribution inside the 8 s window, and with
any attribution at all inside the 15 s window. -/
theorem scan_guards_recorded_before_dispatch
    (attrib : Option (List Char)) (env : ℕ → AttemptOutcome) (present : Bool)
    (tplS tplB : ℕ) (st : BotState) (now : Int) (b : Bubble)
    (hseen : b.seen = false)
    (hne : (pyStrip b.content).isEmpty = false)
    (hg1 : SENDER_MSG_TTL ≤ now - st.trigger_seen
      (scanKey (resolveSender (splitSenderMsg (pyStrip b.content)).1 attrib)
        (splitSenderMsg (pyStrip b.content)).2))
    (hg2 : MSG_ONLY_TTL ≤ now - st.msg_seen
      (scanKey2 (splitSenderMsg (pyStrip b.content)).2)) :
    (scan_item .clean attrib env present tplS tplB st now b).2.2 = true ∧
    (scan_item .clean attrib env present tplS tplB st now b).2.1.trigger_seen
      (scanKey (resolveSender (splitSenderMsg (pyStrip b.content)).1 attrib)
        (splitSenderMsg (pyStrip b.content)).2) = now ∧
    (scan_item .clean attrib env present tplS tplB st now b).2.1.msg_seen
      (scanKey2 (splitSenderMsg (pyStrip b.content)).2) = now ∧
    (∀ (b2 : Bubble) (env2 : ℕ → AttemptOutcome) (present2 : Bool) (tS2 tB2 : ℕ)
        (t2 : Int), b2.seen = false → b2.content = b.content →
      t2 - now < SENDER_MSG_TTL →
      (scan_item .clean attrib env2 present2 tS2 tB2
        (scan_item .clean attrib env present tplS tplB st now b).2.1 t2 b2).2.2 = false) ∧
    (∀ (b2 : Bubble) (attrib2 : Option (List Char)) (env2 : ℕ → AttemptOutcome)
        (present2 : Bool) (tS2 tB2 : ℕ) (t2 : Int),
      b2.seen = false → b2.content = b.content → t2 - now < MSG_ONLY_TTL →
      (scan_item .clean attrib2 env2 present2 tS2 tB2
        (scan_item .clean attrib env present tplS tplB st now b).2.1 t2 b2).2.2 = false) := by
  obtain ⟨p1, p2, p3⟩ :=
    scan_clean_pass env present tplS tplB attrib st now (pyStrip b.content) hne hg1 hg2
  have heq : (scan_item .clean attrib env present tplS tplB st now b).2.1
      = (scan_clean env present tplS tplB attrib st now (pyStrip b.content)).1 := by
    simp [scan_item, hseen]
  refine ⟨by simpa [scan_item, hseen] using p1, by rw [heq]; exact p2,
    by rw [heq]; exact p3, ?_, ?_⟩
  · intro b2 env2 present2 tS2 tB2 t2 hb2 hc2 hw
    rw [heq]
    simp only [scan_item]
    simp [hb2, hc2]
    apply scan_clean_skip
    exact Or.inl (by rw [p2]; omega)
  · intro b2 attrib2 env2 present2 tS2 tB2 t2 hb2 hc2 hw
    rw [heq]
    simp only [scan_item]
    simp [hb2, hc2]
    apply scan_clean_skip
    exact Or.inr (by rw [p3]; omega)

theorem scan_guards_recorded_before_dispatch_witness :
    (scan_item .clean (some "휴식 조교".data) envS true 0 0 initState (100 * SEC)
      ⟨false, "#휴식 10분 시작 - by 철수".data⟩).2.2 = true ∧
    (scan_item .clean (some "휴식 조교".data) envS true 0 0
      ((scan_item .clean (some "휴식 조교".data) envS true 0 0 initState (100 * SEC)
        ⟨false, "#휴식 10분 시작 - by 철수".data⟩).2.1) (105 * SEC)
      ⟨false, "#휴식 10분 시작 - by 철수".data⟩).2.2 = false := by
  obtain ⟨a, _, _, d, _⟩ := scan_guards_recorded_before_dispatch
    (some "휴식 조교".data) envS true 0 0 initState (100 * SEC)
    ⟨false, "#휴식 10분 시작 - by 철수".data⟩ rfl (by decide) (by decide) (by decide)
  exact ⟨a, d ⟨false, "#휴식 10분 시작 - by 철수".data⟩ envS true 0 0 (105 * SEC)
    rfl rfl (by decide)⟩

/-- C9: `handle_chat_item` records the 10 s same-sentence guard
timestamp for every message that reaches the guard stage — one that is
not a self-echo, known noise, pure digits or a return acknowledgement,
and that the guard itself does not suppress — before the Normalizer
runs, so in particular also when normalization returns no match.
Consequently the same sentence repeated verbatim within 10 seconds
(under any non-self-echo attribution) is ignored as a duplicate, with
the state unchanged. -/
theorem same_sentence_guard_records
    (env env2 : ℕ → AttemptOutcome) (present present2 : Bool)
    (tplS tplS2 tplB tplB2 : ℕ) (st : BotState) (now t2 : Int)
    (text : List Char) (sender sender2 : Option (List Char))
    (h1 : isSelfEcho sender = false)
    (h2 : noiseEcho (pyStrip text) = false)
    (h3 : start_noise_search (pyStrip text) = false)
    (h4 : pyIsDigit (pyStrip text) = false)
    (h5 : containsSub "복귀".data (pyStrip text) = false)
    (h6 : 10 * SEC ≤ now - st.cmd_text_guard (textKey (pyStrip text)))
    (h7 : isSelfEcho sender2 = false)
    (h8 : t2 - now < 10 * SEC) :
    (handle_chat_item env present tplS tplB st now text sender).1.cmd_text_guard
      (textKey (pyStrip text)) = now ∧
    handle_chat_item env2 present2 tplS2 tplB2
        ((handle_chat_item env present tplS tplB st now text sender).1) t2 text sender2
      = ((handle_chat_item env present tplS tplB st now text sender).1,
         HandleOutcome.ignoredDup) := by
  have hng : ¬ (now - st.cmd_text_guard (textKey (pyStrip text)) < 10 * SEC) := by omega
  have part1 : (handle_chat_item env present tplS tplB st now text sender).1.cmd_text_guard
      (textKey (pyStrip text)) = now := by
    cases hn : normalize_cmd_text (pyStrip text) with
    | none => simp [handle_chat_item, h1, h2, h3, h4, h5, hng, hn]
    | some n =>
      simp [handle_chat_item, h1, h2, h3, h4, h5, hng, hn, start_break_cmd_text_guard]
  refine ⟨part1, ?_⟩
  have hpos : t2 - (handle_chat_item env present tplS tplB st now text sender).1.cmd_text_guard
      (textKey (pyStrip text)) < 10 * SEC := by rw [part1]; omega
  generalize hst : (handle_chat_item env present tplS tplB st now text sender).1 = st1
    at hpos ⊢
  simp [handle_chat_item, h7, h2, h3, h4, h5, hpos]

theorem same_sentence_guard_records_witness :
    (handle_chat_item envS true 0 0 initState (100 * SEC) "안녕하세요".data
      (some "철수".data)).1.cmd_text_guard (textKey (pyStrip "안녕하세요".data))
      = 100 * SEC ∧
    (handle_chat_item envS true 0 0
      ((handle_chat_item envS true 0 0 initState (100 * SEC) "안녕하세요".data
        (some "철수".data)).1) (105 * SEC) "안녕하세요".data (some "영희".data)).2
      = HandleOutcome.ignoredDup := by
  obtain ⟨a, b⟩ := same_sentence_guard_records envS envS true true 0 0 0 0 initState
    (100 * SEC) (105 * SEC) "안녕하세요".data (some "철수".data) (some "영희".data)
    (by decide) (by decide) (by decide) (by decide) (by decide) (by decide)
    (by decide) (by decide)
  exact ⟨a, by rw [b]⟩

theorem send_bounded_retry_no_escape_witness :
    (type_and_send envT true "공지".data (100 * SEC) initState).2.1
      = ⟨false, true, [80000, 128000, 204800, 327680, 524288,
                       600000, 600000, 600000, 600000, 600000]⟩ ∧
    (start_break envT true 0 initState (100 * SEC) 20 "철수".data).2 = ⟨true, none⟩ ∧
    (start_break envT true 0 initState (100 * SEC) 20 "철수".data).1.sent_msgs = [] := by
  obtain ⟨_, h2, h3⟩ := send_bounded_retry_no_escape envT envT true "공지".data
    (100 * SEC) initState 0 20 "철수".data
  obtain ⟨a, _, _⟩ := h2 envT_ne_success
  obtain ⟨d, e⟩ := h3 envT_ne_success (by decide) (by decide)
  exact ⟨a, d, e⟩


/- ──────────────────────────────────────────────────────────────────────
   Character-class and list lemmas for the Normalizer families (C4, C5).
   ────────────────────────────────────────────────────────────────────── -/

theorem toNat_of_isDig {c : Char} (h : isDig c = true) : 48 ≤ c.toNat ∧ c.toNat ≤ 57 := by
  simpa [isDig] using h

theorem pySpace_of_isDig {c : Char} (h : isDig c = true) : pySpace c = false := by
  have hb := toNat_of_isDig h
  simp only [pySpace, Bool.or_eq_false_iff, beq_eq_false_iff_ne]
  omega

theorem beq_false_of_toNat_ne {a b : Char} (h : a.toNat ≠ b.toNat) : (a == b) = false := by
  rw [beq_eq_false_iff_ne]
  intro he
  exact h (by rw [he])

theorem beq_digit_false (x : Char) (hx : 58 ≤ x.toNat ∨ x.toNat < 48)
    {c : Char} (h : isDig c = true) : (x == c) = false := by
  have hb := toNat_of_isDig h
  exact beq_false_of_toNat_ne (by omega)

theorem digit_beq_false (x : Char) (hx : 58 ≤ x.toNat ∨ x.toNat < 48)
    {c : Char} (h : isDig c = true) : (c == x) = false := by
  have hb := toNat_of_isDig h
  exact beq_false_of_toNat_ne (by omega)

theorem dropWhile_eq_self_of_head (p : Char → Bool) (l : List Char)
    (h : ∀ c, l.head? = some c → p c = false) : l.dropWhile p = l := by
  cases l with
  | nil => rfl
  | cons c r => simp [List.dropWhile_cons, h c rfl]

theorem mem_of_getLast?_eq : ∀ (l : List Char) (c : Char), l.getLast? = some c → c ∈ l := by
  intro l
  induction l with
  | nil => intro c h; simp [List.getLast?] at h
  | cons a l ih =>
    intro c h
    cases l with
    | nil => simp [List.getLast?] at h; simp [h]
    | cons b l' =>
      rw [List.getLast?_cons_cons] at h
      exact List.mem_cons_of_mem a (ih c h)

theorem pyStrip_eq_self (l : List Char)
    (hh : ∀ c, l.head? = some c → pySpace c = false)
    (hl : ∀ c, l.getLast? = some c → pySpace c = false) : pyStrip l = l := by
  unfold pyStrip
  rw [dropWhile_eq_self_of_head _ _ hh]
  rw [dropWhile_eq_self_of_head, List.reverse_reverse]
  intro c hc
  rw [List.head?_reverse] at hc
  exact hl c hc

theorem pyStrip_parts (l A B : List Char) (hAB : l = A ++ B) (hBne : B ≠ [])
    (hB : ∀ c ∈ B, pySpace c = false)
    (hh : ∀ c, l.head? = some c → pySpace c = false) : pyStrip l = l := by
  apply pyStrip_eq_self l hh
  intro c hc
  rw [hAB, List.getLast?_append_of_ne_nil _ hBne] at hc
  exact hB c (mem_of_getLast?_eq _ _ hc)

theorem takeWhile_digit_run (ds r : List Char) (hds : ∀ c ∈ ds, isDig c = true)
    (hr : ∀ c, r.head? = some c → isDig c = false) :
    (ds ++ r).takeWhile isDig = ds ∧ (ds ++ r).drop ds.length = r := by
  constructor
  · induction ds with
    | nil =>
      cases r with
      | nil => rfl
      | cons c rr => simp [List.takeWhile_cons, hr c rfl]
    | cons d ds ih =>
      simp only [List.cons_append, List.takeWhile_cons, hds d (List.mem_cons_self d ds),
        if_true]
      rw [ih (fun c hc => hds c (List.mem_cons_of_mem d hc))]
  · exact List.drop_left ds r

theorem kwList_trailing_kwClass (kw : Bool) (trailing : List Char)
    (htr : ∀ c ∈ trailing, natClassChar c = true) :
    kwClass ((if kw then ['휴', '식'] else ['쉬']) ++ trailing) = true := by
  cases kw <;> simp [kwClass, startsList, List.all_eq_true] <;> exact htr

theorem scanNoNl_reach (filler rest : List Char)
    (hfil : ∀ c ∈ filler, (c == '\n') = false)
    (hrest : kwClass rest = true) (hne : rest ≠ []) : scanNoNl (filler ++ rest) = true := by
  induction filler with
  | nil =>
    cases rest with
    | nil => exact absurd rfl hne
    | cons c r => simp [scanNoNl, hrest]
  | cons c fl ih =>
    have h1 : (c == '\n') = false := hfil c (List.mem_cons_self c fl)
    have h2 := ih (fun x hx => hfil x (List.mem_cons_of_mem c hx))
    simp [scanNoNl, h1, h2]

theorem scanWs_of_scanNoNl (l : List Char) (h : scanNoNl l = true) : scanWs l = true := by
  cases l with
  | nil => simp [scanNoNl] at h
  | cons c r => simp [scanWs, h]

/- ──────────────────────────────────────────────────────────────────────
   The five Normalizer input families (C4, C5).
   ────────────────────────────────────────────────────────────────────── -/

/-- Pure-digit strings are refused (Normalizer rule 1). -/
theorem digits_family (d : Char) (ds : List Char) (hd : isDig d = true)
    (hds : ∀ c ∈ ds, isDig c = true) :
    normalize_cmd_text (d :: ds) = none := by
  have hdall : ∀ c ∈ d :: ds, isDig c = true := by
    intro c hc
    rcases List.mem_cons.mp hc with h | h
    · exact h ▸ hd
    · exact hds c h
  have hstrip : pyStrip (d :: ds) = d :: ds := by
    apply pyStrip_parts _ [] (d :: ds) (by simp) (by simp)
    · intro c hc
      exact pySpace_of_isDig (hdall c hc)
    · intro c hc
      simp only [List.head?_cons, Option.some.injEq] at hc
      exact pySpace_of_isDig (hc ▸ hd)
  have hdig : pyIsDigit (d :: ds) = true := by
    simp only [pyIsDigit, List.isEmpty_cons, Bool.not_false, Bool.true_and,
      List.all_eq_true]
    exact hdall
  simp [normalize_cmd_text, hstrip, hdig]

/-- The short-marker form `'#' + 1-3 digits` yields the digits
(SHORT_RE). -/
theorem short_family (d : Char) (ds : List Char) (hd : isDig d = true)
    (hds : ∀ c ∈ ds, isDig c = true) (hlen : ds.length ≤ 2) :
    normalize_cmd_text ('#' :: d :: ds) = some (digitsVal (d :: ds)) := by
  have hdall : ∀ c ∈ d :: ds, isDig c = true := by
    intro c hc
    rcases List.mem_cons.mp hc with h | h
    · exact h ▸ hd
    · exact hds c h
  have hsd : pySpace d = false := pySpace_of_isDig hd
  have hstrip : pyStrip ('#' :: d :: ds) = '#' :: d :: ds := by
    apply pyStrip_parts _ ['#'] (d :: ds) (by simp) (by simp)
    · intro c hc
      exact pySpace_of_isDig (hdall c hc)
    · intro c hc
      simp only [List.head?_cons, Option.some.injEq] at hc
      subst hc
      decide
  have hndig : pyIsDigit ('#' :: d :: ds) = false := by
    have h1 : isDig '#' = false := by decide
    simp [pyIsDigit, h1]
  have hyu : ('휴' == d) = false := beq_digit_false '휴' (by decide) hd
  have hcmd : cmd_match ('#' :: d :: ds) = none := by
    simp [cmd_match, startsList, List.dropWhile_cons, hsd, hyu]
  have hrun := takeWhile_digit_run (d :: ds) [] hdall (by intro c hc; simp at hc)
  simp only [List.append_nil] at hrun
  have hshort : short_match ('#' :: d :: ds) = some (digitsVal (d :: ds)) := by
    have h0 : pySpace '#' = false := by decide
    simp [short_match, startsList, List.dropWhile_cons, h0, hsd, hrun.1, hrun.2, hlen]
  simp [normalize_cmd_text, hstrip, hndig, hcmd, hshort]

/-- The near-miss `'#' + digits + '분'` is refused. -/
theorem nearmiss_family (d : Char) (ds : List Char) (hd : isDig d = true)
    (hds : ∀ c ∈ ds, isDig c = true) :
    normalize_cmd_text ('#' :: (d :: ds) ++ ['분']) = none := by
  have hdall : ∀ c ∈ d :: ds, isDig c = true := by
    intro c hc
    rcases List.mem_cons.mp hc with h | h
    · exact h ▸ hd
    · exact hds c h
  have hsd : pySpace d = false := pySpace_of_isDig hd
  have hstrip : pyStrip ('#' :: (d :: ds) ++ ['분']) = '#' :: (d :: ds) ++ ['분'] := by
    apply pyStrip_parts _ ('#' :: d :: ds) ['분'] (by simp) (by simp) (by decide)
    intro c hc
    simp only [List.cons_append, List.head?_cons, Option.some.injEq] at hc
    subst hc
    decide
  have hndig : pyIsDigit ('#' :: (d :: ds) ++ ['분']) = false := by
    have h1 : isDig '#' = false := by decide
    simp [pyIsDigit, h1]
  have hyu : ('휴' == d) = false := beq_digit_false '휴' (by decide) hd
  have hcmd : cmd_match ('#' :: (d :: ds) ++ ['분']) = none := by
    simp [cmd_match, startsList, List.dropWhile_cons, hsd, hyu]
  have hrun := takeWhile_digit_run (d :: ds) ['분'] hdall
    (by intro c hc; simp only [List.head?_cons, Option.some.injEq] at hc; subst hc; decide)
  simp only [List.cons_append] at hrun
  have hshort : short_match ('#' :: (d :: ds) ++ ['분']) = none := by
    have h0 : pySpace '#' = false := by decide
    have hbun : pySpace '분' = false := by decide
    simp [short_match, startsList, List.dropWhile_cons, h0, hsd, hrun.1, hrun.2, hbun]
  have hnat : natural_match ('#' :: (d :: ds) ++ ['분']) = none := by
    have h1 : pySpace '#' = false := by decide
    have h2 : isDig '#' = false := by decide
    simp [natural_match, List.dropWhile_cons, List.takeWhile_cons, h1, h2]
  simp only [List.cons_append] at hstrip hndig hcmd hshort hnat
  simp [normalize_cmd_text, hstrip, hndig, hcmd, hshort, hnat]

/-- The canonical form — optional leading `#`, the keyword `휴식`, a
space, digits, optional trailing `분` — yields the digits (CMD_RE). -/
theorem cmd_family (hash unit : Bool) (d : Char) (ds : List Char)
    (hd : isDig d = true) (hds : ∀ c ∈ ds, isDig c = true) :
    normalize_cmd_text ((if hash then ['#'] else []) ++ '휴' :: '식' :: ' ' ::
        (d :: ds) ++ (if unit then ['분'] else []))
      = some (digitsVal (d :: ds)) := by
  have hdall : ∀ c ∈ d :: ds, isDig c = true := by
    intro c hc
    rcases List.mem_cons.mp hc with h | h
    · exact h ▸ hd
    · exact hds c h
  have hsd : pySpace d = false := pySpace_of_isDig hd
  have hrun0 := takeWhile_digit_run (d :: ds) [] hdall (by intro c hc; simp at hc)
  simp only [List.append_nil] at hrun0
  have hrun1 := takeWhile_digit_run (d :: ds) ['분'] hdall
    (by intro c hc; simp only [List.head?_cons, Option.some.injEq] at hc; subst hc; decide)
  simp only [List.cons_append] at hrun1
  cases hash <;> cases unit
  · -- no '#', no '분'
    have hstrip : pyStrip ('휴' :: '식' :: ' ' :: d :: ds) = '휴' :: '식' :: ' ' :: d :: ds := by
      apply pyStrip_parts _ ['휴', '식', ' '] (d :: ds) (by simp) (by simp)
      · intro c hc; exact pySpace_of_isDig (hdall c hc)
      · intro c hc
        simp only [List.head?_cons, Option.some.injEq] at hc
        subst hc; decide
    have hndig : pyIsDigit ('휴' :: '식' :: ' ' :: d :: ds) = false := by
      simp [pyIsDigit, (by decide : isDig '휴' = false)]
    have hcmd : cmd_match ('휴' :: '식' :: ' ' :: d :: ds)
        = some (digitsVal (d :: ds)) := by
      simp [cmd_match, startsList, List.dropWhile_cons, hsd, hd, hrun0.1, hrun0.2,
        (by decide : pySpace '휴' = false), (by decide : pySpace ' ' = true),
        (by decide : ('#' == '휴') = false)]
    simp [normalize_cmd_text, hstrip, hndig, hcmd]
  · -- no '#', with '분'
    have hstrip : pyStrip ('휴' :: '식' :: ' ' :: d :: (ds ++ ['분']))
        = '휴' :: '식' :: ' ' :: d :: (ds ++ ['분']) := by
      apply pyStrip_parts _ ('휴' :: '식' :: ' ' :: d :: ds) ['분'] (by simp) (by simp)
        (by decide)
      intro c hc
      simp only [List.head?_cons, Option.some.injEq] at hc
      subst hc; decide
    have hndig : pyIsDigit ('휴' :: '식' :: ' ' :: d :: (ds ++ ['분'])) = false := by
      simp [pyIsDigit, (by decide : isDig '휴' = false)]
    have hcmd : cmd_match ('휴' :: '식' :: ' ' :: d :: (ds ++ ['분']))
        = some (digitsVal (d :: ds)) := by
      simp [cmd_match, startsList, List.dropWhile_cons, hsd, hd, hrun1.1, hrun1.2,
        (by decide : pySpace '휴' = false), (by decide : pySpace ' ' = true),
        (by decide : pySpace '분' = false), (by decide : ('#' == '휴') = false)]
    simp [normalize_cmd_text, hstrip, hndig, hcmd]
  · -- '#', no '분'
    have hstrip : pyStrip ('#' :: '휴' :: '식' :: ' ' :: d :: ds)
        = '#' :: '휴' :: '식' :: ' ' :: d :: ds := by
      apply pyStrip_parts _ ['#', '휴', '식', ' '] (d :: ds) (by simp) (by simp)
      · intro c hc; exact pySpace_of_isDig (hdall c hc)
      · intro c hc
        simp only [List.head?_cons, Option.some.injEq] at hc
        subst hc; decide
    have hndig : pyIsDigit ('#' :: '휴' :: '식' :: ' ' :: d :: ds) = false := by
      simp [pyIsDigit, (by decide : isDig '#' = false)]
    have hcmd : cmd_match ('#' :: '휴' :: '식' :: ' ' :: d :: ds)
        = some (digitsVal (d :: ds)) := by
      simp [cmd_match, startsList, List.dropWhile_cons, hsd, hd, hrun0.1, hrun0.2,
        (by decide : pySpace '휴' = false), (by decide : pySpace ' ' = true)]
    simp [normalize_cmd_text, hstrip, hndig, hcmd]
  · -- '#' and '분'
    have hstrip : pyStrip ('#' :: '휴' :: '식' :: ' ' :: d :: (ds ++ ['분']))
        = '#' :: '휴' :: '식' :: ' ' :: d :: (ds ++ ['분']) := by
      apply pyStrip_parts _ ('#' :: '휴' :: '식' :: ' ' :: d :: ds) ['분'] (by simp)
        (by simp) (by decide)
      intro c hc
      simp only [List.head?_cons, Option.some.injEq] at hc
      subst hc; decide
    have hndig : pyIsDigit ('#' :: '휴' :: '식' :: ' ' :: d :: (ds ++ ['분'])) = false := by
      simp [pyIsDigit, (by decide : isDig '#' = false)]
    have hcmd : cmd_match ('#' :: '휴' :: '식' :: ' ' :: d :: (ds ++ ['분']))
        = some (digitsVal (d :: ds)) := by
      simp [cmd_match, startsList, List.dropWhile_cons, hsd, hd, hrun1.1, hrun1.2,
        (by decide : pySpace '휴' = false), (by decide : pySpace ' ' = true),
        (by decide : pySpace '분' = false)]
    simp [normalize_cmd_text, hstrip, hndig, hcmd]

/-- Core of the natural-language family: leading 1-3 digits, `분`,
single-line filler, then a remainder that starts a keyword match whose
trailing text stays in the class (and contains no whitespace, so
stripping is the identity). -/
theorem natural_core (d : Char) (ds filler rest : List Char)
    (hd : isDig d = true) (hds : ∀ c ∈ ds, isDig c = true) (hlen : ds.length ≤ 2)
    (hfil : ∀ c ∈ filler, (c == '\n') = false)
    (hrne : rest ≠ []) (hrkw : kwClass rest = true)
    (hrsp : ∀ c ∈ rest, pySpace c = false) :
    normalize_cmd_text (d :: (ds ++ '분' :: (filler ++ rest)))
      = some (digitsVal (d :: ds)) := by
  have hdall : ∀ c ∈ d :: ds, isDig c = true := by
    intro c hc
    rcases List.mem_cons.mp hc with h | h
    · exact h ▸ hd
    · exact hds c h
  have hsd : pySpace d = false := pySpace_of_isDig hd
  have hscan : scanWs (filler ++ rest) = true :=
    scanWs_of_scanNoNl _ (scanNoNl_reach filler rest hfil hrkw hrne)
  have hstrip : pyStrip (d :: (ds ++ '분' :: (filler ++ rest)))
      = d :: (ds ++ '분' :: (filler ++ rest)) := by
    apply pyStrip_parts _ (d :: ds ++ '분' :: filler) rest (by simp) hrne hrsp
    intro c hc
    simp only [List.head?_cons, Option.some.injEq] at hc
    subst hc
    exact hsd
  have hndig : pyIsDigit (d :: (ds ++ '분' :: (filler ++ rest))) = false := by
    simp [pyIsDigit, List.all_append, (by decide : isDig '분' = false)]
  have hrun := takeWhile_digit_run (d :: ds) ('분' :: (filler ++ rest)) hdall
    (by intro c hc; simp only [List.head?_cons, Option.some.injEq] at hc; subst hc; decide)
  simp only [List.cons_append] at hrun
  have hcmd : cmd_match (d :: (ds ++ '분' :: (filler ++ rest))) = none := by
    have hyu : ('휴' == d) = false := beq_digit_false '휴' (by decide) hd
    have hh : ('#' == d) = false := beq_digit_false '#' (by decide) hd
    simp [cmd_match, startsList, List.dropWhile_cons, hsd, hyu, hh]
  have hshort : short_match (d :: (ds ++ '분' :: (filler ++ rest))) = none := by
    have hh : ('#' == d) = false := beq_digit_false '#' (by decide) hd
    simp [short_match, startsList, List.dropWhile_cons, hsd, hh]
  have hnat : natural_match (d :: (ds ++ '분' :: (filler ++ rest)))
      = some (digitsVal (d :: ds)) := by
    simp [natural_match, List.dropWhile_cons, hsd, hd, hrun.1, hrun.2, hlen,
      (by decide : pySpace '분' = false), startsList, hscan]
  simp [normalize_cmd_text, hstrip, hndig, hcmd, hshort, hnat]

/-- The natural-language form — 1-3 digits, `분`, single-line filler, a
keyword (`휴식` or `쉬`), then trailing characters drawn from the class
`[가-힣\s\w]` (here: its non-whitespace members; trailing whitespace
would simply be stripped on entry) — yields the leading digits
(NATURAL_RE). -/
theorem natural_family (d : Char) (ds filler trailing : List Char) (kw : Bool)
    (hd : isDig d = true) (hds : ∀ c ∈ ds, isDig c = true) (hlen : ds.length ≤ 2)
    (hfil : ∀ c ∈ filler, (c == '\n') = false)
    (htr : ∀ c ∈ trailing, natClassChar c = true ∧ pySpace c = false) :
    normalize_cmd_text ((d :: ds) ++ '분' :: filler ++
        (if kw then ['휴', '식'] else ['쉬']) ++ trailing)
      = some (digitsVal (d :: ds)) := by
  have hres := natural_core d ds filler ((if kw then ['휴', '식'] else ['쉬']) ++ trailing)
    hd hds hlen hfil (by cases kw <;> simp)
    (kwList_trailing_kwClass kw trailing (fun c hc => (htr c hc).1))
    (by
      intro c hc
      rcases List.mem_append.mp hc with h | h
      · cases kw <;> simp at h
        · subst h; decide
        · rcases h with h | h <;> subst h <;> decide
      · exact (htr c h).2)
  simpa [List.cons_append, List.append_assoc] using hres

/-- C4: `normalize_cmd_text` returns the written number of minutes for
the canonical family (optional leading `#`, keyword `휴식`, digits,
optional trailing `분`), the short-marker family (`#` followed by 1-3
digits) and the natural-language family (1-3 digits, `분`, single-line
filler, then keyword `휴식` or `쉬`); and returns no match for every
pure-digit string and for every near-miss string `#` + digits + `분`. -/
theorem normalizer_families :
    (∀ (hash unit : Bool) (d : Char) (ds : List Char),
      isDig d = true → (∀ c ∈ ds, isDig c = true) →
      normalize_cmd_text ((if hash then ['#'] else []) ++ '휴' :: '식' :: ' ' ::
          (d :: ds) ++ (if unit then ['분'] else [])) = some (digitsVal (d :: ds))) ∧
    (∀ (d : Char) (ds : List Char),
      isDig d = true → (∀ c ∈ ds, isDig c = true) → ds.length ≤ 2 →
      normalize_cmd_text ('#' :: d :: ds) = some (digitsVal (d :: ds))) ∧
    (∀ (d : Char) (ds filler : List Char) (kw : Bool),
      isDig d = true → (∀ c ∈ ds, isDig c = true) → ds.length ≤ 2 →
      (∀ c ∈ filler, (c == '\n') = false) →
      normalize_cmd_text ((d :: ds) ++ '분' :: filler ++
          (if kw then ['휴', '식'] else ['쉬'])) = some (digitsVal (d :: ds))) ∧
    (∀ (d : Char) (ds : List Char),
      isDig d = true → (∀ c ∈ ds, isDig c = true) →
      normalize_cmd_text (d :: ds) = none) ∧
    (∀ (d : Char) (ds : List Char),
      isDig d = true → (∀ c ∈ ds, isDig c = true) →
      normalize_cmd_text ('#' :: (d :: ds) ++ ['분']) = none) := by
  refine ⟨fun hash unit d ds hd hds => cmd_family hash unit d ds hd hds,
          fun d ds hd hds hlen => short_family d ds hd hds hlen,
          ?_,
          fun d ds hd hds => digits_family d ds hd hds,
          fun d ds hd hds => nearmiss_family d ds hd hds⟩
  intro d ds filler kw hd hds hlen hfil
  have h := natural_family d ds filler [] kw hd hds hlen hfil
    (by intro c hc; simp at hc)
  simpa using h

theorem normalizer_families_witness :
    normalize_cmd_text "#휴식 10".data = some 10 ∧
    normalize_cmd_text "휴식 15분".data = some 15 ∧
    normalize_cmd_text "#10".data = some 10 ∧
    normalize_cmd_text "10분 휴식".data = some 10 ∧
    normalize_cmd_text "10".data = none ∧
    normalize_cmd_text "#20분".data = none := by
  obtain ⟨p1, p2, p3, p4, p5⟩ := normalizer_families
  exact ⟨p1 true false '1' ['0'] (by decide) (by decide),
         p1 false true '1' ['5'] (by decide) (by decide),
         p2 '1' ['0'] (by decide) (by decide) (by decide),
         p3 '1' ['0'] [' '] true (by decide) (by decide) (by decide) (by decide),
         p4 '1' ['0'] (by decide) (by decide),
         p5 '2' ['0'] (by decide) (by decide)⟩

/-- C5 counterexample: the natural-language rule does not tolerate
arbitrary trailing text after the keyword.  `"10분 휴식!"` is of the
claimed form — digits 10, `분`, filler `" "`, keyword `휴식`, trailing
`"!"` — yet the Normalizer returns no match, because `'!'` is outside
the trailing class `[가-힣\s\w]` of NATURAL_RE. -/
theorem natural_trailing_not_arbitrary :
    ¬ (normalize_cmd_text "10분 휴식!".data = some 10) := by decide

/-- C5 (amended): for the natural-language form — 1-3 digits, `분`,
arbitrary single-line filler, one of the keywords `휴식`/`쉬` — the
Normalizer returns the leading digits for every trailing text drawn
from the class `[가-힣\s\w]` (Hangul syllables, word characters; any
trailing whitespace is removed by the entry `strip`), rather than for
arbitrary trailing characters. -/
theorem natural_trailing_class (d : Char) (ds filler trailing : List Char) (kw : Bool)
    (hd : isDig d = true) (hds : ∀ c ∈ ds, isDig c = true) (hlen : ds.length ≤ 2)
    (hfil : ∀ c ∈ filler, (c == '\n') = false)
    (htr : ∀ c ∈ trailing, natClassChar c = true ∧ pySpace c = false) :
    normalize_cmd_text ((d :: ds) ++ '분' :: filler ++
        (if kw then ['휴', '식'] else ['쉬']) ++ trailing)
      = some (digitsVal (d :: ds)) :=
  natural_family d ds filler trailing kw hd hds hlen hfil htr

theorem natural_trailing_class_witness :
    normalize_cmd_text "10분 휴식하겠습니다".data = some 10 :=
  natural_trailing_class '1' ['0'] [' '] "하겠습니다".data true
    (by decide) (by decide) (by decide) (by decide) (by decide)

end ZepBot
